import Mathlib

/-!
Verification of the loan cash-flow and effective-rate engine (`hazel.py`,
`eirmodelling.py`) against its natural-language specification.

The Python sources are shallowly embedded below.  Monetary amounts and rates
(Python floats) are modelled as real numbers; calendar dates (pandas
`Timestamp` at day granularity) as a year/month/day structure with exact
Gregorian arithmetic; fallible code returns `Except`, with an error type
whose constructors record which Python exception the source raises.
-/

namespace Hazel

/-! ### Calendar model (pandas Timestamp, day granularity) -/

/-- A calendar date, as carried by a pandas `Timestamp` at day granularity. -/
structure Date where
  year : Int
  month : Nat
  day : Nat
  deriving DecidableEq

/-- Gregorian leap-year rule. -/
def isLeap (y : Int) : Bool :=
  (y % 4 == 0 && !(y % 100 == 0)) || y % 400 == 0

/-- Number of days in month `m` of year `y`. -/
def daysInMonth (y : Int) (m : Nat) : Nat :=
  if m = 2 then (if isLeap y then 29 else 28)
  else if m = 4 ∨ m = 6 ∨ m = 9 ∨ m = 11 then 30 else 31

/-- Linear day number of a date (days-from-civil algorithm, valid for the
positive years used throughout); only differences of day numbers are used,
matching pandas `(t2 - t1).days`. -/
def toDayNumber (dt : Date) : Int :=
  let y : Int := if dt.month ≤ 2 then dt.year - 1 else dt.year
  let mp : Nat := (dt.month + 9) % 12
  let doy : Nat := (153 * mp + 2) / 5 + dt.day - 1
  365 * y + y / 4 - y / 100 + y / 400 + (doy : Int)

/-- pandas `DateOffset(months := k)`: advance `k` calendar months, clamping
the day to the end of the target month. -/
def addMonths (dt : Date) (k : Nat) : Date :=
  let t : Nat := dt.month - 1 + k
  let y : Int := dt.year + (t / 12 : Nat)
  let m : Nat := t % 12 + 1
  ⟨y, m, min dt.day (daysInMonth y m)⟩

/-- pandas `MonthBegin(1)`: roll forward to the first day of the next
month (also from a date already on a month begin). -/
def monthBegin1 (dt : Date) : Date :=
  if dt.month = 12 then ⟨dt.year + 1, 1, 1⟩ else ⟨dt.year, dt.month + 1, 1⟩

/-- `Timestamp.replace(day := d)`: succeeds only when `d` is a valid day of
the date's month (Python raises `ValueError` otherwise). -/
def replaceDay (dt : Date) (d : Nat) : Option Date :=
  if 1 ≤ d ∧ d ≤ daysInMonth dt.year dt.month then some ⟨dt.year, dt.month, d⟩
  else none

/-! ### `hazel.py`: schedule generation -/

/-- Python exceptions raised (or implicitly possible) in `hazel.py`'s
`loanSchedule.__init__` / `generate_schedule` / `fsolve`:
`KeyError` from `frequency_dict[frequency]`, `AttributeError` from reading
the never-assigned `self.first_payment_date`, `ValueError` from
`Timestamp.replace` or `fsolve`'s zero-derivative `raise`, and
`ZeroDivisionError` from `amount / payments`. -/
inductive PyError where
  | keyError
  | attributeError
  | valueError
  | zeroDivisionError
  deriving DecidableEq

/-- `frequency_dict` of `hazel.py` (lines 4-9), as written in the source. -/
def frequency_dict : String → Option Nat
  | "monthly" => some 1
  | "quarterly" => some 4
  | "semi-annually" => some 5
  | "annually" => some 12
  | _ => none

def monthlyName : String := "monthly"
def quarterlyName : String := "quarterly"
def semiAnnuallyName : String := "semi-annually"
def annuallyName : String := "annually"

/-- First-payment-date computation of `generate_schedule` (lines 60-71).
The source's `if/elif` has no `else` assignment: when
`start_date.day == payment_date` the attribute `self.first_payment_date` is
never set, so the subsequent `pd.date_range(start=self.first_payment_date, ...)`
raises `AttributeError`; that fall-through is modelled by the final
`.error .attributeError`.  In the `<` branch the source wraps
`replace(day=...)` in `try/except ValueError` and retries in the next month;
a failure of the retry (or of the uncaught `replace` in the `>` branch)
propagates as `ValueError`. -/
def firstPaymentDate (start : Date) (pday : Nat) : Except PyError Date :=
  if pday < start.day then
    match replaceDay (monthBegin1 start) pday with
    | some d => .ok d
    | none => .error .valueError
  else if start.day < pday then
    match replaceDay start pday with
    | some d => .ok d
    | none =>
      match replaceDay (monthBegin1 start) pday with
      | some d => .ok d
      | none => .error .valueError
  else .error .attributeError

/-- `pd.date_range(start := first, periods := n, freq := DateOffset(months := k))`:
`n` dates starting at `first`, each obtained from the previous by a
`k`-calendar-month offset. -/
def dateRange : Date → Nat → Nat → List Date
  | _, 0, _ => []
  | d, n + 1, k => d :: dateRange (addMonths d k) n k

/-- `generate_schedule` (lines 59-84): first payment date, then `payments`
dates spaced `frequency` months apart, with the start date prepended as the
period-0 row.  The `days_in_period` column is recovered by
`daysInPeriodList` below. -/
def generate_schedule (start : Date) (pday payments freq : Nat) :
    Except PyError (List Date) :=
  match firstPaymentDate start pday with
  | .error e => .error e
  | .ok fp => .ok (start :: dateRange fp payments freq)

/-- The `days_in_period` column: calendar-day difference between each row's
date and the next row's date (the final row has none, pandas `NaN`). -/
def daysInPeriodList (dates : List Date) : List Int :=
  List.zipWith (fun a b => toDayNumber b - toDayNumber a) dates dates.tail

/-! ### `hazel.py`: the Newton-variant root finder `fsolve` (lines 11-22) -/

/-- Outcome of `fsolve`: `ok` models `return x_new`; `valueError` models
`raise ValueError("fail")` on a zero estimated derivative; `noneReturned`
models the source falling off the `for` loop, which in Python silently
returns `None`. -/
inductive FsolveResult where
  | ok (x : ℝ)
  | valueError
  | noneReturned

/-- The loop of `fsolve`, fuel = remaining iterations.  The derivative is a
one-sided finite difference with fixed step `h = 1e-5`; the iteration stops
with `ok x_new` when `|x_new - x| < xtol`; exhausting the budget yields
`noneReturned` (the source has no statement after the loop). -/
noncomputable def fsolveGo (func : ℝ → ℝ) (xtol : ℝ) : Nat → ℝ → FsolveResult
  | 0, _ => .noneReturned
  | k + 1, x =>
    let f_val := func x
    let h : ℝ := 1e-5
    let f_prime := (func (x + h) - func x) / h
    if f_prime = 0 then .valueError
    else
      let x_new := x - f_val / f_prime
      if |x_new - x| < xtol then .ok x_new
      else fsolveGo func xtol k x_new

/-- `fsolve(func, x0, xtol=1e-5, max_iter=100)` (hazel.py lines 11-22). -/
noncomputable def fsolve (func : ℝ → ℝ) (x0 xtol : ℝ) (max_iter : Nat) :
    FsolveResult :=
  fsolveGo func xtol max_iter x0

/-! ### `hazel.py`: the amortization walk `calculate_payment` (lines 86-127) -/

/-- One row of the ledger built by `calculate_payment`: the six lists the
source appends to, at a common index. -/
structure Row where
  opening : ℝ
  interest : ℝ
  principal : ℝ
  total : ℝ
  fees : ℝ
  closing : ℝ

/-- The ledger recursion of `calculate_payment`.  Row 0 is the seed row
(`opening_balance=[0]`, `closing_balance=[amount]`,
`fees_outstanding=[start_fee+end_fee]`, zero flows).  Row `i ≥ 1` opens at
the previous closing balance and accrues
`interest = opening * ((1+rate)^(days_in_period[i-1]/365.25) - 1)`;
the source's three `elif` branches (in order: `date == 1`,
`date == len(schedule)-1`, else) differ only in the payment total and the
outstanding-fee update, and each computes the same interest/principal/balance
expressions, written here once above the branch split.  `days.getD (i-1) 0`
models `payment_schedule.at[date-1, "days_in_period"]`, which is in range at
every index the source reads. -/
noncomputable def ledgerRow (amount rate payment start_fee end_fee : ℝ)
    (days : List Int) (n : Nat) : Nat → Row
  | 0 => ⟨0, 0, 0, 0, start_fee + end_fee, amount⟩
  | i + 1 =>
    let prev := ledgerRow amount rate payment start_fee end_fee days n i
    let ob := prev.closing
    let interest := ob * ((1 + rate) ^ (((days.getD i 0 : Int) : ℝ) / 365.25) - 1)
    let principal := payment - interest
    if i + 1 = 1 then
      ⟨ob, interest, principal, payment + start_fee, prev.fees - start_fee, ob - principal⟩
    else if i + 1 = n - 1 then
      ⟨ob, interest, principal, payment + end_fee, prev.fees - end_fee, ob - principal⟩
    else
      ⟨ob, interest, principal, payment, prev.fees, ob - principal⟩

/-- `calculate_payment(payment)` returns
`closing_balance[len(payment_schedule)-1] - residual` (line 127), where `n`
is the number of schedule rows (`payments + 1`). -/
noncomputable def calculate_payment (amount residual rate start_fee end_fee : ℝ)
    (days : List Int) (n : Nat) (payment : ℝ) : ℝ :=
  (ledgerRow amount rate payment start_fee end_fee days n (n - 1)).closing - residual

/-! ### `hazel.py`: `loanSchedule.__init__` (lines 25-57) -/

/-- What `__init__` leaves behind when it completes: the payment schedule and
the result of the payment solve (`monthly_payment` is Python `None` when
`fsolve` exhausts its budget — construction still completes).  The final
`pd.DataFrame` of the constructor is a rounded column assembly of the walk's
lists and the schedule, with no further computation, and is not modelled. -/
structure LoanOutcome where
  schedule : List Date
  monthly_payment : FsolveResult

/-- `loanSchedule.__init__`, in source order: `frequency_dict[frequency]`
lookup (an unrecognized name raises `KeyError`), payment-day default
(`start_date.day`) or clamp (`min(28, payment_date)`), `generate_schedule`,
then `fsolve(self.calculate_payment, x0 = amount / payments)` — the `x0`
division raises `ZeroDivisionError` when `payments == 0`.  There is no
validation of `amount`, `rate`, or `payments` anywhere. -/
noncomputable def loanInit (amount rate : ℝ) (start_date : Date) (payments : Nat)
    (payment_date : Option Nat) (frequency : String)
    (residual start_fee end_fee : ℝ) : Except PyError LoanOutcome :=
  match frequency_dict frequency with
  | none => .error .keyError
  | some freq =>
    let pday := match payment_date with
      | none => start_date.day
      | some p => min 28 p
    match generate_schedule start_date pday payments freq with
    | .error e => .error e
    | .ok dates =>
      if payments = 0 then .error .zeroDivisionError
      else
        let days := daysInPeriodList dates
        let n := dates.length
        match fsolve (calculate_payment amount residual rate start_fee end_fee days n)
            (amount / (payments : ℝ)) (1e-5) 100 with
        | .valueError => .error .valueError
        | r => .ok ⟨dates, r⟩

/-! ### `eirmodelling.py`

A dated cash-flow series (`pd.Series` indexed by dates) is modelled as a
`List (Int × ℝ)` of (day number, amount) pairs; a datetime index is already
a day number here, so `_ensure_series_index_datetime` reduces to its
`sort_index()` (a stable sort by date). -/

/-- Errors raised by `xirr`: `invalidCashflows` models the two `ValueError`
raises ("Cashflows series is empty" and "Cashflows must contain at least one
positive and one negative value..."), the kind the specification calls
`InvalidCashflows`; `nonConvergence` models the
`RuntimeError("Unable to bracket or converge when solving XIRR")`. -/
inductive XirrError where
  | invalidCashflows
  | nonConvergence
  deriving DecidableEq

/-- `_ensure_series_index_datetime`'s `sort_index()`: stable sort by date. -/
def sortSeries (s : List (Int × ℝ)) : List (Int × ℝ) :=
  s.mergeSort (fun a b => decide (a.1 ≤ b.1))

/-- Stand-in for the IEEE `np.inf` returned by `npv` when
`rate <= -0.9999999999` (the specification's "large sentinel value"); IEEE
infinity has no counterpart in `ℝ`, and no theorem below depends on the
value — the solver never evaluates `npv` at such a rate on the paths the
claims describe. -/
noncomputable def floatInf : ℝ := 2 ^ (1024 : ℕ)

/-- `compute_pv_of_cashflows` (lines 60-85): empty series yields `0.0`; else
sort, keep entries dated at or after `base_date`, an empty remainder yields
`0.0`, else sum `amount / (1+rate)^(days/365)` with `days` the calendar-day
gap to `base_date`. -/
noncomputable def compute_pv_of_cashflows (cashflows : List (Int × ℝ))
    (discount_rate : ℝ) (base_date : Int) : ℝ :=
  if cashflows = [] then 0
  else
    let series := sortSeries cashflows
    let remaining := series.filter (fun e => decide (base_date ≤ e.1))
    if remaining = [] then 0
    else
      (remaining.map
        (fun e => e.2 / (1 + discount_rate) ^ (((e.1 - base_date : Int) : ℝ) / 365))).sum

/-- The discounting postcondition exactly as the specification words it
(§4.2): the sum over the entries dated at or after `base` of
`amount / (1+rate)^(Δ/365)`, entries strictly before excluded, empty filtered
set yielding 0 — stated directly on the unsorted input. -/
noncomputable def specDiscount (series : List (Int × ℝ)) (rate : ℝ) (base : Int) : ℝ :=
  ((series.filter (fun e => decide (base ≤ e.1))).map
    (fun e => e.2 / (1 + rate) ^ (((e.1 - base : Int) : ℝ) / 365))).sum

/-- The `npv` closure inside `xirr` (lines 111-117): guarded against
`rate <= -0.9999999999`, else the day-count-weighted NPV of the (sorted)
series against its base date. -/
noncomputable def npv (series : List (Int × ℝ)) (base : Int) (rate : ℝ) : ℝ :=
  if rate ≤ -0.9999999999 then floatInf
  else (series.map (fun e => e.2 / (1 + rate) ^ (((e.1 - base : Int) : ℝ) / 365))).sum

/-- The bound-expansion `while` loop of `xirr` (lines 125-131), fuel =
remaining expansions (50 at entry): while the endpoint values share a sign,
double `upper`, re-evaluate, and `break` once `upper` exceeds `1e6`. -/
noncomputable def expandUpper (f : ℝ → ℝ) (f_low : ℝ) : Nat → ℝ → ℝ → ℝ × ℝ
  | 0, upper, f_high => (upper, f_high)
  | k + 1, upper, f_high =>
    if 0 < f_low * f_high then
      let upper2 := upper * 2
      let f_high2 := f upper2
      if (1e6 : ℝ) < upper2 then (upper2, f_high2)
      else expandUpper f f_low k upper2 f_high2
    else (upper, f_high)

/-- The bisection loop of `xirr` (lines 150-163), fuel = remaining
iterations: return the midpoint early when `|f(m)| < tol`, otherwise narrow
to the half preserving the sign change (`fa * fm <= 0` keeps the left half);
on exhaustion return the midpoint of the final bracket. -/
noncomputable def bisect (f : ℝ → ℝ) (tol : ℝ) : Nat → ℝ → ℝ → ℝ → ℝ → ℝ
  | 0, a, b, _, _ => 0.5 * (a + b)
  | k + 1, a, b, fa, fb =>
    let m := 0.5 * (a + b)
    let fm := f m
    if |fm| < tol then m
    else if fa * fm ≤ 0 then bisect f tol k a m fa fm
    else bisect f tol k m b fm fb

/-- The bracket-narrowing of `bisect` alone, following the specification's
"the final bracket after the iteration budget": same midpoint/sign-change
narrowing, no early exit, returning the `(a, b)` pair left at exhaustion.
Used only to state what `bisect` returns when no midpoint met the
tolerance. -/
noncomputable def specFinalBracket (f : ℝ → ℝ) : Nat → ℝ → ℝ → ℝ → ℝ → ℝ × ℝ
  | 0, a, b, _, _ => (a, b)
  | k + 1, a, b, fa, fb =>
    let m := 0.5 * (a + b)
    let fm := f m
    if fa * fm ≤ 0 then specFinalBracket f k a m fa fm
    else specFinalBracket f k m b fm fb

/-- The Newton-Raphson fallback of `xirr` (lines 133-147), fuel = remaining
iterations: adaptive step `h` (`1e-6`, scaled by `|rate|` once `|rate| >= 1`),
`break` on a zero estimated derivative, success when the update is within
`tol`; both the `break` and budget exhaustion reach the
`raise RuntimeError(...)` after the loop. -/
noncomputable def newtonFallback (f : ℝ → ℝ) (tol : ℝ) : Nat → ℝ → Except XirrError ℝ
  | 0, _ => .error .nonConvergence
  | k + 1, rate =>
    let fv := f rate
    let h := if |rate| < 1 then (1e-6 : ℝ) else |rate| * 1e-6
    let f1 := f (rate + h)
    let df_dr := (f1 - fv) / h
    if df_dr = 0 then .error .nonConvergence
    else
      let new_rate := rate - fv / df_dr
      if |new_rate - rate| < tol then .ok new_rate
      else newtonFallback f tol k new_rate

/-- The root-finding phase of `xirr` (lines 119-163) over an arbitrary
objective: bracket search from `[lower = -0.9999, upper = 10.0]` with at
most 50 expansions, then either the Newton fallback seeded at `guess` (when
the endpoint values still share a sign) or bisection over the bracket. -/
noncomputable def xirrSolve (f : ℝ → ℝ) (guess tol : ℝ) (max_iter : Nat) :
    Except XirrError ℝ :=
  let lower : ℝ := -0.9999
  let upper : ℝ := 10.0
  let f_low := f lower
  let f_high := f upper
  let p := expandUpper f f_low 50 upper f_high
  if 0 < f_low * p.2 then newtonFallback f tol max_iter guess
  else .ok (bisect f tol max_iter lower p.1 f_low p.2)

/-- `xirr(cashflows, guess=0.05, tol=1e-8, max_iter=200)` (lines 87-163):
sort, reject an empty series and a series without both a strictly positive
and a strictly negative amount (both `ValueError`, the specification's
`InvalidCashflows`), then solve `npv(rate) = 0` against the sorted series'
first date. -/
noncomputable def xirr (cashflows : List (Int × ℝ)) (guess tol : ℝ)
    (max_iter : Nat) : Except XirrError ℝ :=
  let series := sortSeries cashflows
  if series = [] then .error .invalidCashflows
  else if (∃ e ∈ series, 0 < e.2) ∧ (∃ e ∈ series, e.2 < 0) then
    xirrSolve (npv series (series.head?.elim 0 Prod.fst)) guess tol max_iter
  else .error .invalidCashflows

/-- `xirr`'s Python default arguments: `guess=0.05`, `tol=1e-8`,
`max_iter=200`. -/
noncomputable def xirrWithDefaults (cashflows : List (Int × ℝ)) :
    Except XirrError ℝ :=
  xirr cashflows 0.05 1e-8 200

/-! ### Supporting lemmas -/

/-- `dateRange` produces exactly `n` dates. -/
lemma dateRange_length (v : Nat) : ∀ (m : Nat) (fp : Date),
    (dateRange fp m v).length = m := by
  intro m
  induction m with
  | zero => intro fp; rfl
  | succ m ih => intro fp; simp [dateRange, ih]

/-- Within a `dateRange`, each date is the `v`-month offset of its
predecessor. -/
lemma dateRange_step (v : Nat) : ∀ (m : Nat) (fp : Date) (j : Nat), j + 1 < m →
    (dateRange fp m v).getD (j + 1) ⟨0, 1, 1⟩ =
      addMonths ((dateRange fp m v).getD j ⟨0, 1, 1⟩) v := by
  intro m
  induction m with
  | zero => intro fp j h; exact absurd h (by omega)
  | succ m ih =>
    intro fp j h
    cases j with
    | zero =>
      obtain ⟨m, rfl⟩ : ∃ k, m = k + 1 := ⟨m - 1, by omega⟩
      simp [dateRange]
    | succ j =>
      have hrec := ih (addMonths fp v) j (by omega)
      simpa [dateRange] using hrec

/-! ### C1 — first-payment-date rule -/

/-- C1.  The claim's equal-day case is a code bug: when
`start_date.day == payment_day_of_month` (the default when no payment day is
supplied), the `else` branch of `generate_schedule` assigns nothing, so the
source reads the never-set `self.first_payment_date` and construction fails
with `AttributeError` instead of keeping the start date and succeeding.
Evaluated here at start date 2023-01-15 with `payment_date=None`
(defaulting to day 15, equal). -/
theorem C1_equal_day_fails_attribute_error :
    loanInit 1000 (5 / 100) ⟨2023, 1, 15⟩ 12 none monthlyName 0 0 0 =
      .error .attributeError := rfl

/-! ### C2 — silent `None` on solver exhaustion -/

/-- On `func t = 1/t` from any `x ≥ 1`, one `fsolve` iteration maps `x` to
`2x + 1e-5`: the estimated derivative is `-1/(x(x+1e-5)) ≠ 0` and the step
never comes within `xtol = 1e-5`, so every iteration budget ends in the
source's implicit `return None`. -/
lemma fsolveGo_one_div_exhausts : ∀ (k : Nat) (x : ℝ), 1 ≤ x →
    fsolveGo (fun t => 1 / t) (1e-5) k x = .noneReturned := by
  intro k
  induction k with
  | zero => intro x hx; rfl
  | succ k ih =>
    intro x hx
    have hx0 : (0 : ℝ) < x := by linarith
    have hh : (0 : ℝ) < (1e-5 : ℝ) := by norm_num
    have hxh : (0 : ℝ) < x + 1e-5 := by linarith
    have hxne : x ≠ 0 := ne_of_gt hx0
    have hxhne : x + 1e-5 ≠ 0 := ne_of_gt hxh
    have hfp : (1 / (x + 1e-5) - 1 / x) / (1e-5 : ℝ) = -(1 / (x * (x + 1e-5))) := by
      field_simp
      ring
    have hprod : (0 : ℝ) < x * (x + 1e-5) := mul_pos hx0 hxh
    have hfp0 : -(1 / (x * (x + 1e-5))) ≠ 0 := by
      simp only [ne_eq, neg_eq_zero, div_eq_zero_iff, one_ne_zero, false_or]
      exact ne_of_gt hprod
    have hxn : x - (1 / x) / -(1 / (x * (x + 1e-5))) = 2 * x + 1e-5 := by
      field_simp
      ring
    have hfar : ¬ (|2 * x + 1e-5 - x| < (1e-5 : ℝ)) := by
      have heq : 2 * x + 1e-5 - x = x + (1e-5 : ℝ) := by ring
      rw [heq, abs_of_pos hxh]
      linarith
    simp only [fsolveGo, hfp]
    rw [if_neg hfp0, hxn, if_neg hfar]
    exact ih (2 * x + 1e-5) (by linarith)

/-- C2.  The code bug evaluated: `fsolve` on `func(x) = 1/x` from `x0 = 1`
with the source defaults (`xtol = 1e-5`, `max_iter = 100`) exhausts its
budget without ever meeting the tolerance and silently returns Python
`None` — not a `NonConvergence` failure as the claim requires. -/
theorem C2_exhaustion_returns_none :
    fsolve (fun t => 1 / t) 1 (1e-5) 100 = .noneReturned :=
  fsolveGo_one_div_exhausts 100 1 le_rfl

/-! ### C4 — payment-date spacing -/

/-- C4 counterexample.  `frequency_dict` maps `"quarterly"` to `4`, and that
value is used directly as the month offset between consecutive payment
dates (`DateOffset(months=self.frequency)`): from a first payment date of
2023-01-15 the next quarterly payment date is 2023-05-15, four months
later — not the 2023-04-15 that the claim's `12/frequency = 3`-month
spacing would give. -/
theorem C4_counterexample :
    frequency_dict quarterlyName = some 4
    ∧ generate_schedule ⟨2023, 1, 2⟩ 15 2 4 =
        .ok [⟨2023, 1, 2⟩, ⟨2023, 1, 15⟩, ⟨2023, 5, 15⟩]
    ∧ addMonths ⟨2023, 1, 15⟩ 3 = ⟨2023, 4, 15⟩
    ∧ (⟨2023, 5, 15⟩ : Date) ≠ ⟨2023, 4, 15⟩ :=
  ⟨rfl, rfl, rfl, by decide⟩

/-- C4 as amended: in any successfully generated schedule, consecutive
payment dates (rows 1 and up; row 0 is the prepended start date) are spaced
by exactly `frequency_dict[name]` calendar months — the mapped value itself
(monthly=1, quarterly=4, semi-annually=5, annually=12), not `12/frequency`
months. -/
theorem C4_amended_spacing_is_mapped_value (name : String) (v : Nat)
    (start : Date) (pday n : Nat) (dates : List Date)
    (hname : frequency_dict name = some v)
    (hgen : generate_schedule start pday n v = .ok dates)
    (i : Nat) (h1 : 1 ≤ i) (h2 : i + 1 < dates.length) :
    dates.getD (i + 1) ⟨0, 1, 1⟩ = addMonths (dates.getD i ⟨0, 1, 1⟩) v := by
  unfold generate_schedule at hgen
  cases hfp : firstPaymentDate start pday with
  | error e => rw [hfp] at hgen; exact absurd hgen (by simp)
  | ok fp =>
    rw [hfp] at hgen
    have hdates : dates = start :: dateRange fp n v := by
      cases hgen; rfl
    subst hdates
    obtain ⟨j, rfl⟩ : ∃ j, i = j + 1 := ⟨i - 1, by omega⟩
    have hlen : (dateRange fp n v).length = n := dateRange_length v n fp
    have hj : j + 1 < n := by
      simp only [List.length_cons, hlen] at h2
      omega
    simpa [List.getD_cons_succ] using dateRange_step v n fp j hj

/-- Witness for C4's amended theorem at a concrete quarterly schedule. -/
theorem C4_amended_witness :
    frequency_dict quarterlyName = some 4
    ∧ generate_schedule ⟨2023, 1, 2⟩ 15 2 4 =
        .ok [⟨2023, 1, 2⟩, ⟨2023, 1, 15⟩, ⟨2023, 5, 15⟩]
    ∧ (1 ≤ 1 ∧ 1 + 1 < 3)
    ∧ ([⟨2023, 1, 2⟩, ⟨2023, 1, 15⟩, ⟨2023, 5, 15⟩] : List Date).getD 2 ⟨0, 1, 1⟩ =
        addMonths (([⟨2023, 1, 2⟩, ⟨2023, 1, 15⟩, ⟨2023, 5, 15⟩] : List Date).getD 1 ⟨0, 1, 1⟩) 4 :=
  ⟨rfl, rfl, ⟨by decide, by decide⟩,
    C4_amended_spacing_is_mapped_value quarterlyName 4 ⟨2023, 1, 2⟩ 15 2 _ rfl rfl 1
      (by decide) (by decide)⟩

/-! ### C5 — fee boundary adjustments -/

/-- C5 counterexample.  With a single payment (`N = 1`, schedule length
`n = 2`) the one payment period is both period 1 and the final period, and
the source's `elif` chain gives the period-1 branch precedence: with
`payment = 50`, `start_fee = 100`, `end_fee = 200` the period-1 total is
`150 = payment + start_fee`, not `payment + end_fee = 250`, and
`fees_outstanding` drops only by the start fee (`300 → 200`), not by the
end fee — so the claim's "both adjustments apply" at `N = 1` is false. -/
theorem C5_counterexample :
    (ledgerRow 1000 0 50 100 200 [31] 2 1).total = 150
    ∧ ¬ (ledgerRow 1000 0 50 100 200 [31] 2 1).total = 50 + 200
    ∧ (ledgerRow 1000 0 50 100 200 [31] 2 1).fees = 200
    ∧ ¬ (ledgerRow 1000 0 50 100 200 [31] 2 1).fees = (100 + 200) - 200 := by
  have hrow : ledgerRow 1000 0 50 100 200 [31] 2 1 = ⟨1000, 0, 50, 150, 200, 950⟩ := by
    show ledgerRow 1000 0 50 100 200 [31] 2 (0 + 1) = _
    simp [ledgerRow, Real.one_rpow]
    norm_num
  rw [hrow]
  refine ⟨rfl, by norm_num, rfl, by norm_num⟩

/-- C5 as amended: for `N ≥ 1` payments (schedule length `N + 1`), period 1
always receives the start-fee adjustment (`total = payment + start_fee`,
fees drop by `start_fee`); the final period `N` receives the end-fee
adjustment only when `N ≥ 2` — when `N = 1` the period-1 branch shadows the
final-period branch and the start fee applies instead. -/
theorem C5_amended_fee_boundaries (amount rate payment sfee efee : ℝ)
    (days : List Int) (N : Nat) (hN : 1 ≤ N) :
    (ledgerRow amount rate payment sfee efee days (N + 1) 1).total = payment + sfee
    ∧ (ledgerRow amount rate payment sfee efee days (N + 1) 1).fees = (sfee + efee) - sfee
    ∧ (ledgerRow amount rate payment sfee efee days (N + 1) N).total
        = payment + (if N = 1 then sfee else efee)
    ∧ (ledgerRow amount rate payment sfee efee days (N + 1) N).fees
        = (ledgerRow amount rate payment sfee efee days (N + 1) (N - 1)).fees
          - (if N = 1 then sfee else efee) := by
  obtain ⟨j, rfl⟩ : ∃ j, N = j + 1 := ⟨N - 1, by omega⟩
  refine ⟨?_, ?_, ?_, ?_⟩
  · show (ledgerRow amount rate payment sfee efee days (j + 1 + 1) (0 + 1)).total = _
    simp [ledgerRow]
  · show (ledgerRow amount rate payment sfee efee days (j + 1 + 1) (0 + 1)).fees = _
    simp [ledgerRow]
  · by_cases hj : j = 0
    · subst hj; simp [ledgerRow]
    · have h1 : j + 1 ≠ 0 := by omega
      have h2 : ¬ (j + 1 = 1) := by omega
      simp [ledgerRow, h2, Nat.add_sub_cancel]
  · by_cases hj : j = 0
    · subst hj; simp [ledgerRow]
    · have h2 : ¬ (j + 1 = 1) := by omega
      simp [ledgerRow, h2, Nat.add_sub_cancel]

/-- Witness for C5's amended theorem at `N = 12` monthly payments. -/
theorem C5_amended_fee_boundaries_witness :
    1 ≤ 12
    ∧ ((ledgerRow 1000 (5 / 100) 50 100 200 [31] (12 + 1) 1).total = 50 + 100
      ∧ (ledgerRow 1000 (5 / 100) 50 100 200 [31] (12 + 1) 1).fees = (100 + 200) - 100
      ∧ (ledgerRow 1000 (5 / 100) 50 100 200 [31] (12 + 1) 12).total
          = 50 + (if (12 : Nat) = 1 then (100 : ℝ) else 200)
      ∧ (ledgerRow 1000 (5 / 100) 50 100 200 [31] (12 + 1) 12).fees
          = (ledgerRow 1000 (5 / 100) 50 100 200 [31] (12 + 1) (12 - 1)).fees
            - (if (12 : Nat) = 1 then (100 : ℝ) else 200)) :=
  ⟨by decide, C5_amended_fee_boundaries 1000 (5 / 100) 50 100 200 [31] 12 (by decide)⟩

/-! ### C3 — absence of loan-terms validation -/

/-- At `rate = 0` the growth factor is `1`, so each period's closing balance
is the previous one minus the payment: `closing[i] = amount - i * payment`. -/
lemma ledgerRow_closing_rate_zero (amount payment sfee efee : ℝ)
    (days : List Int) (n : Nat) :
    ∀ i : Nat, (ledgerRow amount 0 payment sfee efee days n i).closing
      = amount - i * payment := by
  intro i
  induction i with
  | zero => simp [ledgerRow]
  | succ i ih =>
    have hone : ((1 : ℝ) + 0) ^ (((days.getD i 0 : Int) : ℝ) / 365.25) = 1 := by
      rw [add_zero, Real.one_rpow]
    simp only [ledgerRow, hone, sub_self, mul_zero, sub_zero]
    split
    · simp only [ih]; push_cast; ring
    · split
      · simp only [ih]; push_cast; ring
      · simp only [ih]; push_cast; ring

/-- With zero rate, `calculate_payment` is the affine map
`payment ↦ (amount - (n-1) * payment) - residual`. -/
lemma calculate_payment_rate_zero (amount residual sfee efee : ℝ)
    (days : List Int) (n : Nat) (payment : ℝ) :
    calculate_payment amount residual 0 sfee efee days n payment
      = amount - (n - 1 : Nat) * payment - residual := by
  unfold calculate_payment
  rw [ledgerRow_closing_rate_zero]

/-- One `fsolve` iteration from an exact root with a nonzero estimated
derivative converges immediately and returns the root itself. -/
lemma fsolveGo_at_root (func : ℝ → ℝ) (xtol : ℝ) (k : Nat) (x : ℝ)
    (hroot : func x = 0)
    (hdz : (func (x + 1e-5) - func x) / (1e-5 : ℝ) ≠ 0)
    (htol : 0 < xtol) :
    fsolveGo func xtol (k + 1) x = .ok x := by
  simp only [fsolveGo]
  rw [if_neg hdz, hroot, zero_div, sub_zero, sub_self, abs_zero, if_pos htol]

/-- The schedule generated for a loan starting 2023-01-01 with payment day
15, 12 monthly payments: the period-0 start row plus payment dates on the
15th of each month. -/
def jan2023Schedule : List Date :=
  [⟨2023, 1, 1⟩, ⟨2023, 1, 15⟩, ⟨2023, 2, 15⟩, ⟨2023, 3, 15⟩,
   ⟨2023, 4, 15⟩, ⟨2023, 5, 15⟩, ⟨2023, 6, 15⟩, ⟨2023, 7, 15⟩,
   ⟨2023, 8, 15⟩, ⟨2023, 9, 15⟩, ⟨2023, 10, 15⟩, ⟨2023, 11, 15⟩,
   ⟨2023, 12, 15⟩]

/-- C3 counterexample (code bug evaluation).  A loan with `principal = -1000`
(and zero rate, to keep the arithmetic exact) is not rejected: construction
runs schedule generation and the payment solve to completion, returning a
full outcome with solved payment `-1000/12` — no `InvalidLoanTerms`-style
failure exists anywhere in the constructor.  (The repository's own
`functional_test.py` expects an exception for a negative amount and a
negative rate; the code raises none.) -/
theorem C3_negative_principal_not_rejected :
    loanInit (-1000) 0 ⟨2023, 1, 1⟩ 12 (some 15) monthlyName 0 0 0 =
      .ok ⟨jan2023Schedule, .ok ((-1000) / ((12 : Nat) : ℝ))⟩ := by
  have hroot : calculate_payment (-1000) 0 0 0 0 (daysInPeriodList jan2023Schedule)
      jan2023Schedule.length ((-1000) / ((12 : Nat) : ℝ)) = 0 := by
    rw [calculate_payment_rate_zero]
    norm_num [jan2023Schedule]
  have hdz : (calculate_payment (-1000) 0 0 0 0 (daysInPeriodList jan2023Schedule)
        jan2023Schedule.length ((-1000) / ((12 : Nat) : ℝ) + 1e-5)
      - calculate_payment (-1000) 0 0 0 0 (daysInPeriodList jan2023Schedule)
        jan2023Schedule.length ((-1000) / ((12 : Nat) : ℝ))) / (1e-5 : ℝ) ≠ 0 := by
    rw [calculate_payment_rate_zero, calculate_payment_rate_zero]
    norm_num [jan2023Schedule]
  have hfs : fsolve
      (calculate_payment (-1000) 0 0 0 0 (daysInPeriodList jan2023Schedule)
        jan2023Schedule.length)
      ((-1000) / ((12 : Nat) : ℝ)) (1e-5) 100 = .ok ((-1000) / ((12 : Nat) : ℝ)) := by
    show fsolveGo _ _ (99 + 1) _ = _
    exact fsolveGo_at_root _ _ 99 _ hroot hdz (by norm_num)
  unfold loanInit
  rw [show frequency_dict monthlyName = some 1 from rfl]
  dsimp only
  rw [show generate_schedule ⟨2023, 1, 1⟩ (min 28 15) 12 1 = .ok jan2023Schedule from rfl]
  dsimp only
  rw [if_neg (by decide : ¬ (12 = 0))]
  rw [hfs]

/-! ### C8 — discounting postcondition -/

/-- The sort inside `compute_pv_of_cashflows` permutes and never changes the
filtered sum, so the routine equals the specification's direct
filter-and-sum formula. -/
lemma compute_pv_eq_specDiscount (s : List (Int × ℝ)) (rate : ℝ) (base : Int) :
    compute_pv_of_cashflows s rate base = specDiscount s rate base := by
  unfold compute_pv_of_cashflows specDiscount
  by_cases hs : s = []
  · subst hs; simp
  · rw [if_neg hs]
    have hperm : List.Perm ((sortSeries s).filter (fun e => decide (base ≤ e.1)))
        (s.filter (fun e => decide (base ≤ e.1))) :=
      (List.mergeSort_perm s _).filter _
    by_cases hr : (sortSeries s).filter (fun e => decide (base ≤ e.1)) = []
    · rw [if_pos hr]
      rw [hr] at hperm
      rw [(List.perm_nil.mp hperm.symm : s.filter (fun e => decide (base ≤ e.1)) = [])]
      simp
    · rw [if_neg hr]
      exact (hperm.map _).sum_eq

/-- C8.  `compute_pv_of_cashflows` equals the specification's formula: the
sum, over exactly the entries dated at or after `base_date`, of
`amount / (1+rate)^(Δ/365)` with `Δ = date - base_date`; earlier entries are
excluded (not negated), and an empty filtered set gives 0 (`specDiscount` of
an empty filter is an empty sum). -/
theorem C8_discount_postcondition (series : List (Int × ℝ)) (rate : ℝ)
    (base_date : Int) :
    compute_pv_of_cashflows series rate base_date = specDiscount series rate base_date :=
  compute_pv_eq_specDiscount series rate base_date

/-! ### C6 — sign-mix precondition -/

/-- C6.  Any series without both a strictly positive and a strictly negative
amount — including the empty series — makes `xirr` fail with the
`InvalidCashflows`-kind `ValueError` before any solving: the result is the
validation error for every `guess`, `tol` and iteration budget. -/
theorem C6_sign_mix_precondition (s : List (Int × ℝ)) (guess tol : ℝ)
    (max_iter : Nat)
    (h : ¬ ((∃ e ∈ s, 0 < e.2) ∧ (∃ e ∈ s, e.2 < 0))) :
    xirr s guess tol max_iter = .error .invalidCashflows := by
  simp only [xirr]
  by_cases hs : sortSeries s = []
  · rw [if_pos hs]
  · rw [if_neg hs]
    have hiff : ((∃ e ∈ sortSeries s, 0 < e.2) ∧ (∃ e ∈ sortSeries s, e.2 < 0))
        ↔ ((∃ e ∈ s, 0 < e.2) ∧ (∃ e ∈ s, e.2 < 0)) := by
      unfold sortSeries
      simp only [List.mem_mergeSort]
    rw [if_neg (fun hc => h (hiff.mp hc))]

/-- Witness for C6 at the all-positive two-entry series
`[(day 0, 1), (day 365, 2)]`. -/
theorem C6_sign_mix_witness :
    (¬ ((∃ e ∈ [((0 : Int), (1 : ℝ)), ((365 : Int), (2 : ℝ))], 0 < e.2)
        ∧ (∃ e ∈ [((0 : Int), (1 : ℝ)), ((365 : Int), (2 : ℝ))], e.2 < 0)))
    ∧ xirr [((0 : Int), (1 : ℝ)), ((365 : Int), (2 : ℝ))] 0.05 1e-8 200 =
        .error .invalidCashflows :=
  ⟨by norm_num,
    C6_sign_mix_precondition [((0 : Int), (1 : ℝ)), ((365 : Int), (2 : ℝ))]
      0.05 1e-8 200 (by norm_num)⟩

/-! ### C7 — bracketing strategy with Newton fallback -/

/-- The expansion loop exits only by finding a sign change, by the `upper`
bound exceeding `1e6` right after a doubling, or by exhausting its fuel with
`k` doublings performed (`upper` multiplied by `2^k`). -/
lemma expandUpper_exit (f : ℝ → ℝ) (f_low : ℝ) : ∀ (k : Nat) (u fh : ℝ),
    ¬ (0 < f_low * (expandUpper f f_low k u fh).2)
    ∨ (1e6 : ℝ) < (expandUpper f f_low k u fh).1
    ∨ (expandUpper f f_low k u fh).1 = 2 ^ k * u := by
  intro k
  induction k with
  | zero => intro u fh; right; right; simp [expandUpper]
  | succ k ih =>
    intro u fh
    by_cases hc : 0 < f_low * fh
    · by_cases hu : (1e6 : ℝ) < u * 2
      · right; left
        simp [expandUpper, hc, hu]
      · rw [show expandUpper f f_low (k + 1) u fh
            = expandUpper f f_low k (u * 2) (f (u * 2)) by
          simp [expandUpper, hc, hu]]
        rcases ih (u * 2) (f (u * 2)) with h | h | h
        · exact Or.inl h
        · exact Or.inr (Or.inl h)
        · right; right; rw [h]; ring
    · left
      rw [show expandUpper f f_low (k + 1) u fh = (u, fh) by simp [expandUpper, hc]]
      exact hc

/-- Each bisection run either exits early at a midpoint already within the
tolerance, or returns the midpoint of the bracket left after the iteration
budget. -/
lemma bisect_exit (f : ℝ → ℝ) (tol : ℝ) : ∀ (k : Nat) (a b fa fb : ℝ),
    |f (bisect f tol k a b fa fb)| < tol
    ∨ bisect f tol k a b fa fb
        = 0.5 * ((specFinalBracket f k a b fa fb).1 + (specFinalBracket f k a b fa fb).2) := by
  intro k
  induction k with
  | zero => intro a b fa fb; right; simp [bisect, specFinalBracket]
  | succ k ih =>
    intro a b fa fb
    by_cases hm : |f (0.5 * (a + b))| < tol
    · left
      rw [show bisect f tol (k + 1) a b fa fb = 0.5 * (a + b) by simp [bisect, hm]]
      exact hm
    · by_cases hs : fa * f (0.5 * (a + b)) ≤ 0
      · rw [show bisect f tol (k + 1) a b fa fb
              = bisect f tol k a (0.5 * (a + b)) fa (f (0.5 * (a + b))) by
            simp [bisect, hm, hs],
          show specFinalBracket f (k + 1) a b fa fb
              = specFinalBracket f k a (0.5 * (a + b)) fa (f (0.5 * (a + b))) by
            simp [specFinalBracket, hs]]
        exact ih _ _ _ _
      · rw [show bisect f tol (k + 1) a b fa fb
              = bisect f tol k (0.5 * (a + b)) b (f (0.5 * (a + b))) fb by
            simp [bisect, hm, hs],
          show specFinalBracket f (k + 1) a b fa fb
              = specFinalBracket f k (0.5 * (a + b)) b (f (0.5 * (a + b))) fb by
            simp [specFinalBracket, hs]]
        exact ih _ _ _ _

/-- C7.  The rate-extraction strategy, as the source implements it:
(i) `xirrSolve` tries the bracket from `[-0.9999, 10.0]` first and falls
back to Newton seeded at the caller's `guess` exactly when the expanded
endpoint values still share a sign; (ii) the expansion doubles `upper` at
most 50 times and stops once it exceeds `1e6`; (iii) bisection returns early
only midpoints meeting `|f(m)| < tol` and otherwise the midpoint of the
final bracket; (iv) an exhausted Newton fallback is the
`NonConvergence`-kind error, never a value; (v) the default guess is `0.05`
(with defaults `tol = 1e-8`, `max_iter = 200`); and (vi) `xirr` is the
sign-mix validation followed by this solve of `npv` against the sorted
series' first date. -/
theorem C7_bracketing_with_newton_fallback (f : ℝ → ℝ) (guess tol : ℝ)
    (max_iter : Nat) (s : List (Int × ℝ)) :
    (xirrSolve f guess tol max_iter =
      if 0 < f (-0.9999) * (expandUpper f (f (-0.9999)) 50 10.0 (f 10.0)).2
      then newtonFallback f tol max_iter guess
      else .ok (bisect f tol max_iter (-0.9999)
        (expandUpper f (f (-0.9999)) 50 10.0 (f 10.0)).1
        (f (-0.9999)) (expandUpper f (f (-0.9999)) 50 10.0 (f 10.0)).2))
    ∧ (∀ (f_low : ℝ) (k : Nat) (u fh : ℝ),
        ¬ (0 < f_low * (expandUpper f f_low k u fh).2)
        ∨ (1e6 : ℝ) < (expandUpper f f_low k u fh).1
        ∨ (expandUpper f f_low k u fh).1 = 2 ^ k * u)
    ∧ (∀ (k : Nat) (a b fa fb : ℝ),
        |f (bisect f tol k a b fa fb)| < tol
        ∨ bisect f tol k a b fa fb
            = 0.5 * ((specFinalBracket f k a b fa fb).1
              + (specFinalBracket f k a b fa fb).2))
    ∧ (∀ x : ℝ, newtonFallback f tol 0 x = .error .nonConvergence)
    ∧ (xirrWithDefaults s = xirr s 0.05 1e-8 200)
    ∧ (xirr s guess tol max_iter =
        if sortSeries s = [] then .error .invalidCashflows
        else if (∃ e ∈ sortSeries s, 0 < e.2) ∧ (∃ e ∈ sortSeries s, e.2 < 0)
        then xirrSolve (npv (sortSeries s) ((sortSeries s).head?.elim 0 Prod.fst))
          guess tol max_iter
        else .error .invalidCashflows) :=
  ⟨rfl, fun f_low => expandUpper_exit f f_low, bisect_exit f tol,
    fun _ => rfl, rfl, rfl⟩

/-! ### C9 — dual day-count conventions -/

/-- C9.  All three branches of the amortization walk accrue
`interest = opening * ((1+annual_rate)^(days_in_period[i-1]/365.25) - 1)`
for every period `i ≥ 1`; the discounting routine applies the
`(1+rate)^(Δ/365)` factor (shown on a one-entry series); and the two
annualization denominators genuinely differ: `d/365.25 ≠ d/365` for every
nonzero day count `d`. -/
theorem C9_dual_day_count (amount rate payment sfee efee r2 amt : ℝ)
    (days : List Int) (n i : Nat) (hi : 1 ≤ i)
    (entryDate base d : Int) (hd : d ≠ 0) :
    ((ledgerRow amount rate payment sfee efee days n i).interest
      = (ledgerRow amount rate payment sfee efee days n i).opening
        * ((1 + rate) ^ (((days.getD (i - 1) 0 : Int) : ℝ) / 365.25) - 1))
    ∧ (compute_pv_of_cashflows [(entryDate, amt)] r2 base
        = if base ≤ entryDate
          then amt / (1 + r2) ^ (((entryDate - base : Int) : ℝ) / 365) else 0)
    ∧ ((d : ℝ) / 365.25 ≠ (d : ℝ) / 365) := by
  refine ⟨?_, ?_, ?_⟩
  · obtain ⟨j, rfl⟩ : ∃ j, i = j + 1 := ⟨i - 1, by omega⟩
    simp only [ledgerRow, Nat.add_sub_cancel]
    split
    · rfl
    · split
      · rfl
      · rfl
  · rw [compute_pv_eq_specDiscount]
    unfold specDiscount
    by_cases hb : base ≤ entryDate
    · rw [if_pos hb]
      simp [hb]
    · rw [if_neg hb]
      simp [hb]
  · intro heq
    have hcast : (d : ℝ) ≠ 0 := Int.cast_ne_zero.mpr hd
    rw [div_eq_div_iff (by norm_num) (by norm_num)] at heq
    have := mul_left_cancel₀ hcast (by linarith : (d : ℝ) * 365 = (d : ℝ) * 365.25)
    norm_num at this

/-- Witness for C9: period 1 of a 12-payment ledger with a 31-day first
period, a one-entry discounting at one year, and day count `d = 31`. -/
theorem C9_dual_day_count_witness :
    (1 ≤ 1 ∧ (31 : Int) ≠ 0)
    ∧ (((ledgerRow 1000 (5 / 100) 50 100 200 [31] 13 1).interest
        = (ledgerRow 1000 (5 / 100) 50 100 200 [31] 13 1).opening
          * ((1 + 5 / 100) ^ (((([31] : List Int).getD (1 - 1) 0 : Int) : ℝ) / 365.25) - 1))
      ∧ (compute_pv_of_cashflows [((365 : Int), (400 : ℝ))] (5 / 100) 0
          = if (0 : Int) ≤ 365
            then (400 : ℝ) / (1 + 5 / 100) ^ ((((365 : Int) - 0 : Int) : ℝ) / 365) else 0)
      ∧ (((31 : Int) : ℝ) / 365.25 ≠ ((31 : Int) : ℝ) / 365)) :=
  ⟨⟨by decide, by decide⟩,
    C9_dual_day_count 1000 (5 / 100) 50 100 200 (5 / 100) 400 [31] 13 1
      (by decide) 365 0 31 (by decide)⟩

/-! ### C10 — order-insensitivity of rate extraction and discounting -/

lemma sortSeries_perm (s : List (Int × ℝ)) : List.Perm (sortSeries s) s :=
  List.mergeSort_perm s _

/-- `List.min?` on `Int` lists is invariant under permutation. -/
lemma min?_perm_int {l₁ l₂ : List Int} (h : List.Perm l₁ l₂) :
    l₁.min? = l₂.min? := by
  haveI : Std.Antisymm (fun a b : Int => a ≤ b) := ⟨fun h1 h2 => le_antisymm h1 h2⟩
  cases h1 : l₁.min? with
  | none =>
    rw [List.min?_eq_none_iff] at h1
    subst h1
    rw [h.symm.eq_nil]
    rfl
  | some a =>
    rw [List.min?_eq_some_iff (fun a => le_refl a) (fun a b => min_choice a b)
      (fun a b c => le_min_iff)] at h1
    rw [eq_comm, List.min?_eq_some_iff (fun a => le_refl a) (fun a b => min_choice a b)
      (fun a b c => le_min_iff)]
    exact ⟨h.mem_iff.mp h1.1, fun b hb => h1.2 b (h.mem_iff.mpr hb)⟩

/-- The sorted series is `Pairwise`-ordered by date. -/
lemma sortSeries_pairwise (s : List (Int × ℝ)) :
    (sortSeries s).Pairwise (fun a b : Int × ℝ => a.1 ≤ b.1) := by
  have hs := @List.sorted_mergeSort (Int × ℝ) (fun a b => decide (a.1 ≤ b.1))
    (fun a b c hab hbc => by
      simp only [decide_eq_true_eq] at hab hbc ⊢
      exact le_trans hab hbc)
    (fun a b => by
      simp only [Bool.or_eq_true, decide_eq_true_eq]
      exact le_total a.1 b.1) s
  refine List.Pairwise.imp ?_ hs
  intro a b hab
  simpa using hab

/-- The first date of the sorted series is the minimum date of the series:
head of `mergeSort` by date versus `min?` over the dates. -/
lemma sortSeries_head_fst (s : List (Int × ℝ)) :
    (sortSeries s).head?.map Prod.fst = (s.map Prod.fst).min? := by
  haveI : Std.Antisymm (fun a b : Int => a ≤ b) := ⟨fun h1 h2 => le_antisymm h1 h2⟩
  have hsorted := sortSeries_pairwise s
  cases hs : sortSeries s with
  | nil =>
    have hp := sortSeries_perm s
    rw [hs] at hp
    rw [hp.symm.eq_nil]
    rfl
  | cons x xs =>
    have hperm : List.Perm (x :: xs) s := by rw [← hs]; exact sortSeries_perm s
    show some x.1 = (s.map Prod.fst).min?
    rw [eq_comm, List.min?_eq_some_iff (fun a => le_refl a) (fun a b => min_choice a b)
      (fun a b c => le_min_iff)]
    constructor
    · exact List.mem_map_of_mem Prod.fst (hperm.mem_iff.mp (List.mem_cons_self x xs))
    · intro b hb
      obtain ⟨e, he, rfl⟩ := List.mem_map.mp hb
      have he2 : e ∈ x :: xs := hperm.mem_iff.mpr he
      rcases List.mem_cons.mp he2 with rfl | hmem
      · exact le_refl _
      · rw [hs] at hsorted
        exact (List.pairwise_cons.mp hsorted).1 e hmem

/-- `specDiscount` depends only on the multiset of entries. -/
lemma specDiscount_perm {s₁ s₂ : List (Int × ℝ)} (h : List.Perm s₁ s₂)
    (rate : ℝ) (base : Int) :
    specDiscount s₁ rate base = specDiscount s₂ rate base :=
  ((h.filter _).map _).sum_eq

/-- `xirr` depends only on the multiset of entries. -/
lemma xirr_perm {s₁ s₂ : List (Int × ℝ)} (h : List.Perm s₁ s₂)
    (guess tol : ℝ) (max_iter : Nat) :
    xirr s₁ guess tol max_iter = xirr s₂ guess tol max_iter := by
  have h12 : List.Perm (sortSeries s₁) (sortSeries s₂) :=
    (sortSeries_perm s₁).trans (h.trans (sortSeries_perm s₂).symm)
  simp only [xirr]
  by_cases hs : sortSeries s₁ = []
  · have hs2 : sortSeries s₂ = [] := by
      rw [hs] at h12
      exact h12.symm.eq_nil
    rw [if_pos hs, if_pos hs2]
  · have hs2 : sortSeries s₂ ≠ [] := fun hh => hs (by rw [hh] at h12; exact h12.eq_nil)
    rw [if_neg hs, if_neg hs2]
    have hsign : ((∃ e ∈ sortSeries s₁, 0 < e.2) ∧ (∃ e ∈ sortSeries s₁, e.2 < 0))
        ↔ ((∃ e ∈ sortSeries s₂, 0 < e.2) ∧ (∃ e ∈ sortSeries s₂, e.2 < 0)) := by
      constructor
      · rintro ⟨⟨a, ha, hpa⟩, b, hb, hnb⟩
        exact ⟨⟨a, h12.mem_iff.mp ha, hpa⟩, b, h12.mem_iff.mp hb, hnb⟩
      · rintro ⟨⟨a, ha, hpa⟩, b, hb, hnb⟩
        exact ⟨⟨a, h12.mem_iff.mpr ha, hpa⟩, b, h12.mem_iff.mpr hb, hnb⟩
    have helim : ∀ o : Option (Int × ℝ), o.elim 0 Prod.fst = (o.map Prod.fst).getD 0 := by
      intro o; cases o <;> rfl
    have hbase : (sortSeries s₁).head?.elim 0 Prod.fst
        = (sortSeries s₂).head?.elim 0 Prod.fst := by
      rw [helim, helim, sortSeries_head_fst, sortSeries_head_fst,
        min?_perm_int (h.map Prod.fst)]
    have hnpv : npv (sortSeries s₁) ((sortSeries s₁).head?.elim 0 Prod.fst)
        = npv (sortSeries s₂) ((sortSeries s₂).head?.elim 0 Prod.fst) := by
      funext r
      unfold npv
      rw [hbase]
      by_cases hr : r ≤ -0.9999999999
      · rw [if_pos hr, if_pos hr]
      · rw [if_neg hr, if_neg hr]
        exact (h12.map _).sum_eq
    by_cases hsgn : (∃ e ∈ sortSeries s₁, 0 < e.2) ∧ (∃ e ∈ sortSeries s₁, e.2 < 0)
    · rw [if_pos hsgn, if_pos (hsign.mp hsgn), hnpv]
    · rw [if_neg hsgn, if_neg (fun hc => hsgn (hsign.mpr hc))]

/-- C10.  Both `extract_rate` and `discount` sort the series by date before
computing, so each is invariant under any permutation of the entries; and
the NPV base date `xirr` uses — the first date of the sorted series — is the
minimum date of the series, not the first-listed entry's date. -/
theorem C10_order_insensitivity (s₁ s₂ : List (Int × ℝ))
    (hperm : List.Perm s₁ s₂) (rate guess tol : ℝ) (max_iter : Nat)
    (base : Int) :
    compute_pv_of_cashflows s₁ rate base = compute_pv_of_cashflows s₂ rate base
    ∧ xirr s₁ guess tol max_iter = xirr s₂ guess tol max_iter
    ∧ (sortSeries s₁).head?.map Prod.fst = (s₁.map Prod.fst).min? := by
  refine ⟨?_, xirr_perm hperm guess tol max_iter, sortSeries_head_fst s₁⟩
  rw [compute_pv_eq_specDiscount, compute_pv_eq_specDiscount]
  exact specDiscount_perm hperm rate base

/-- Witness for C10 at the two-entry series `[(0, -1), (365, 2)]` and its
reversal. -/
theorem C10_order_insensitivity_witness :
    List.Perm [((0 : Int), (-1 : ℝ)), ((365 : Int), (2 : ℝ))]
      [((365 : Int), (2 : ℝ)), ((0 : Int), (-1 : ℝ))]
    ∧ (compute_pv_of_cashflows [((0 : Int), (-1 : ℝ)), ((365 : Int), (2 : ℝ))] (5 / 100) 0
        = compute_pv_of_cashflows [((365 : Int), (2 : ℝ)), ((0 : Int), (-1 : ℝ))] (5 / 100) 0
      ∧ xirr [((0 : Int), (-1 : ℝ)), ((365 : Int), (2 : ℝ))] 0.05 1e-8 200
        = xirr [((365 : Int), (2 : ℝ)), ((0 : Int), (-1 : ℝ))] 0.05 1e-8 200
      ∧ (sortSeries [((0 : Int), (-1 : ℝ)), ((365 : Int), (2 : ℝ))]).head?.map Prod.fst
        = ([((0 : Int), (-1 : ℝ)), ((365 : Int), (2 : ℝ))].map Prod.fst).min?) :=
  ⟨List.Perm.swap ((365 : Int), (2 : ℝ)) ((0 : Int), (-1 : ℝ)) [],
    C10_order_insensitivity [((0 : Int), (-1 : ℝ)), ((365 : Int), (2 : ℝ))]
      [((365 : Int), (2 : ℝ)), ((0 : Int), (-1 : ℝ))]
      (List.Perm.swap ((365 : Int), (2 : ℝ)) ((0 : Int), (-1 : ℝ)) [])
      (5 / 100) 0.05 1e-8 200 0⟩

end Hazel
